import Mathlib

/-!
Shallow embedding of the GallerySwipe review-queue engine
(`src/screens/GallerySwipeScreen.tsx` and `src/trashStore.ts`).

Modelling conventions:
* Item identifiers are `String`s (photo URIs), as in the source.
* The continuation cursor is an opaque type parameter `κ` (the source uses
  opaque `end_cursor` strings and never inspects them).
* `CameraRoll.getPhotos` is a `Fetcher κ`: it takes the `first` page size and
  an optional `after` cursor and either fails (`SourceFetchError`) or returns
  a page.  `after: currentAfter ?? undefined` in the source corresponds to
  passing the `Option κ` through unchanged: `none` means "no cursor", i.e.
  the first page.
* `AsyncStorage` and the trash store are an explicit `Storage` record;
  reads/writes to it are pure field accesses/updates (persistence writes are
  modelled as infallible; only page-source fetches can fail, matching the
  error-handling claims under study).
* Pure UI state (pan animation, modal visibility, trash counter label) is
  omitted; the `busy` flag serialises operations, so each operation is
  modelled as one atomic state transformer running to completion.
* Operations are instrumented with the list of `(first, after)` requests
  they issue to the page source, so "performs no fetch" is expressible.
-/

deriving instance DecidableEq for Except

namespace GallerySwipe

/-- `HISTORY_LIMIT = 5` in the source. -/
def HISTORY_LIMIT : Nat := 5

/-- `PAGE_SIZE = 80` in the source: how many items are fetched per call. -/
def PAGE_SIZE : Nat := 80

/-- `MIN_QUEUE_BEFORE_REFILL = 20` in the source: the low-water mark. -/
def MIN_QUEUE_BEFORE_REFILL : Nat := 20

/-- `MAX_QUEUE_PERSIST = 120` in the source: persisted-queue truncation. -/
def MAX_QUEUE_PERSIST : Nat := 120

/-- Undo entries: `{ kind: "skip"; uri } | { kind: "trash"; uri }`. -/
inductive Action where
  | skip (uri : String)
  | trash (uri : String)
deriving DecidableEq, Repr

/-- Result of one `CameraRoll.getPhotos` call: the mapped
`e.node.image?.uri` values (possibly undefined, hence `Option`),
`page_info.has_next_page` and `page_info.end_cursor`. -/
structure FetchResult (κ : Type) where
  edges : List (Option String)
  hasNextPage : Bool
  endCursor : Option κ
deriving DecidableEq

/-- The page source: `getPhotos {first, after}` which may throw. -/
def Fetcher (κ : Type) : Type := Nat → Option κ → Except String (FetchResult κ)

/-- The `AsyncStorage` keys the engine uses, plus the trash store.
`none` means the key is absent. -/
structure Storage (κ : Type) where
  pos : Option Nat
  queue : Option (List String)
  after : Option κ
  trash : List String
  total : Option Nat
  totalTs : Option Nat
deriving DecidableEq

/-- In-memory component state relevant to the queue engine:
`pos`, `queue` (null before first load), `afterCursor`, `history`, `err`,
plus the persisted `Storage`. -/
structure ScreenState (κ : Type) where
  pos : Nat
  queue : Option (List String)
  afterCursor : Option κ
  history : List Action
  err : Option String
  storage : Storage κ
deriving DecidableEq

/-- `.map(e => e.node.image?.uri).filter(u => typeof u === "string" && u.length > 0)`. -/
def pageUris (edges : List (Option String)) : List String :=
  (edges.filterMap id).filter (fun u => decide (0 < u.length))

/-- The dedup loop of `refillQueueIfNeeded`: walk `merged`, keeping each
identifier only if it is not in `seen` yet (first occurrence wins). -/
def dedupeKeepFirst (seen : List String) : List String → List String
  | [] => []
  | u :: rest =>
    if u ∈ seen then dedupeKeepFirst seen rest
    else u :: dedupeKeepFirst (u :: seen) rest

/-- `getTrashSet()` from `trashStore.ts`: the persisted trash set
(membership is what matters; it is kept as a list of URIs). -/
def getTrashSet (s : Storage κ) : List String :=
  s.trash

/-- `addToTrash(uri)` from `trashStore.ts`: `Set.add` then persist. -/
def addToTrash (uri : String) (s : Storage κ) : Storage κ :=
  if uri ∈ s.trash then s else { s with trash := s.trash ++ [uri] }

/-- `removeFromTrash(uri)` from `trashStore.ts`: `Set.delete` then persist. -/
def removeFromTrash (uri : String) (s : Storage κ) : Storage κ :=
  { s with trash := s.trash.filter (fun v => decide (v ≠ uri)) }

/-- `persistProgress(nextPos, nextQueue, nextAfter)`: writes `KEY_POS`,
`KEY_QUEUE` truncated to `MAX_QUEUE_PERSIST`, and `KEY_AFTER`
(`setString` removes the key when the value is null). -/
def persistProgress (nextPos : Nat) (nextQueue : List String) (nextAfter : Option κ)
    (s : Storage κ) : Storage κ :=
  { s with
      pos := some nextPos
      queue := some (nextQueue.take MAX_QUEUE_PERSIST)
      after := nextAfter }

/-- `commitState(nextPos, nextQueue, nextAfter)`: set the three state
variables, then `persistProgress`. -/
def commitState (nextPos : Nat) (nextQueue : List String) (nextAfter : Option κ)
    (st : ScreenState κ) : ScreenState κ :=
  { st with
      pos := nextPos
      queue := some nextQueue
      afterCursor := nextAfter
      storage := persistProgress nextPos nextQueue nextAfter st.storage }

/-- `pushHistory(a)`: `[a, ...prev].slice(0, HISTORY_LIMIT)`. -/
def pushHistory (a : Action) (prev : List Action) : List Action :=
  (a :: prev).take HISTORY_LIMIT

/-- Outcome of `refillQueueIfNeeded`: the (possibly failed) new
`{q, after}` pair, plus the requests issued to the page source. -/
structure RefillOut (κ : Type) where
  result : Except String (List String × Option κ)
  requests : List (Nat × Option κ)
deriving DecidableEq

/-- `refillQueueIfNeeded(currentQueue, currentAfter)`.
If the queue is at or above the low-water mark, return the inputs unchanged
without fetching.  Otherwise fetch one page of `PAGE_SIZE` at
`currentAfter ?? undefined`, drop undefined/empty URIs, drop URIs in the
trash set, append to the queue and dedupe (first occurrence wins), and
take `end_cursor` as the next cursor when `has_next_page`, else null. -/
def refillQueueIfNeeded (fetch : Fetcher κ) (trash : List String)
    (currentQueue : List String) (currentAfter : Option κ) : RefillOut κ :=
  if MIN_QUEUE_BEFORE_REFILL ≤ currentQueue.length then
    ⟨.ok (currentQueue, currentAfter), []⟩
  else
    match fetch PAGE_SIZE currentAfter with
    | .error e => ⟨.error e, [(PAGE_SIZE, currentAfter)]⟩
    | .ok res =>
      let newUris := (pageUris res.edges).filter (fun u => decide (u ∉ trash))
      let nextAfter := if res.hasNextPage then res.endCursor else none
      ⟨.ok (dedupeKeepFirst [] (currentQueue ++ newUris), nextAfter),
        [(PAGE_SIZE, currentAfter)]⟩

/-- `loadInitial()`: read saved progress and the trash set, filter the
saved queue against the trash set, fetch the first page if the filtered
queue is empty, top up via `refillQueueIfNeeded`, then commit and clear
`err` and `history`.  A thrown fetch error is caught and stored in `err`
with no other state change. -/
def loadInitial (fetch : Fetcher κ) (st : ScreenState κ) : ScreenState κ :=
  let trash := getTrashSet st.storage
  let savedPos := st.storage.pos.getD 0
  let savedQueue := st.storage.queue.getD []
  let savedAfter := st.storage.after
  let q0 := savedQueue.filter (fun u => decide (u ∉ trash))
  let firstPage : Except String (List String × Option κ) :=
    if q0.isEmpty then
      match fetch PAGE_SIZE none with
      | .error e => .error e
      | .ok res =>
        .ok ((pageUris res.edges).filter (fun u => decide (u ∉ trash)),
          if res.hasNextPage then res.endCursor else none)
    else
      .ok (q0, savedAfter)
  match firstPage with
  | .error e => { st with err := some e }
  | .ok (q, after) =>
    match (refillQueueIfNeeded fetch trash q after).result with
    | .error e => { st with err := some e }
    | .ok (q2, after2) =>
      { commitState savedPos q2 after2 st with err := none, history := [] }

/-- `skipCurrent()`: no-op on a null/empty queue; otherwise push a skip
entry, pop the head, refill the remainder and commit `pos + 1`.  A thrown
fetch error leaves the already-pushed history entry in place and aborts
before the commit; the error escapes uncaught (returned in the second
component). -/
def skipCurrent (fetch : Fetcher κ) (st : ScreenState κ) :
    ScreenState κ × Option String :=
  match st.queue with
  | none => (st, none)
  | some [] => (st, none)
  | some (uri :: rest) =>
    let st1 := { st with history := pushHistory (Action.skip uri) st.history }
    match (refillQueueIfNeeded fetch (getTrashSet st1.storage) rest st1.afterCursor).result with
    | .error e => (st1, some e)
    | .ok (q2, after2) => (commitState (st.pos + 1) q2 after2 st1, none)

/-- `trashCurrent()`: like skip, but also `addToTrash(uri)` (persisted)
before the refill; the refill therefore filters with the updated trash
set.  On a thrown fetch error the history push and the trash insertion
have already happened and are not rolled back. -/
def trashCurrent (fetch : Fetcher κ) (st : ScreenState κ) :
    ScreenState κ × Option String :=
  match st.queue with
  | none => (st, none)
  | some [] => (st, none)
  | some (uri :: rest) =>
    let st1 := { st with
      history := pushHistory (Action.trash uri) st.history
      storage := addToTrash uri st.storage }
    match (refillQueueIfNeeded fetch (getTrashSet st1.storage) rest st1.afterCursor).result with
    | .error e => (st1, some e)
    | .ok (q2, after2) => (commitState (st.pos + 1) q2 after2 st1, none)

/-- `undoLast()`: no-op on empty history; otherwise pop the newest entry,
un-trash its URI if it was a trash entry, rewind `pos` by one (floored at
0, which is `Nat` subtraction), prepend the URI to the queue front, keep
the cursor, and commit.  No page-source fetch is involved. -/
def undoLast (st : ScreenState κ) : ScreenState κ :=
  match st.history with
  | [] => st
  | last :: restHist =>
    let uri := match last with
      | Action.skip u => u
      | Action.trash u => u
    let storage1 := match last with
      | Action.trash u => removeFromTrash u st.storage
      | Action.skip _ => st.storage
    let nextPos := st.pos - 1
    let nextQueue := match st.queue with
      | some q => uri :: q
      | none => [uri]
    commitState nextPos nextQueue st.afterCursor
      { st with history := restHist, storage := storage1 }

/-- Outcome of `rebuildStateAtPos`: the (possibly failed)
`{pos, q, after}` triple plus the requests issued to the page source. -/
structure RebuildOut (κ : Type) where
  result : Except String (Nat × List String × Option κ)
  requests : List (Nat × Option κ)
deriving DecidableEq

/-- The `while (true)` page-walking loop of `rebuildStateAtPos`, with
explicit fuel.  Each iteration either returns or strictly increases
`consumed` while keeping `consumed + pageLen ≤ targetPos`, so
`targetPos + 1` fuel always suffices and the out-of-fuel sentinel is
unreachable from `rebuildStateAtPos`. -/
def rebuildLoop (fetch : Fetcher κ) (trash : List String) (targetPos : Nat) :
    Nat → Option κ → Nat → List (Nat × Option κ) → RebuildOut κ
  | 0, _, _, acc => ⟨.error "rebuild loop out of fuel", acc⟩
  | fuel + 1, after, consumed, acc =>
    match fetch PAGE_SIZE after with
    | .error e => ⟨.error e, acc ++ [(PAGE_SIZE, after)]⟩
    | .ok res =>
      let acc1 := acc ++ [(PAGE_SIZE, after)]
      let pageLen := res.edges.length
      if pageLen = 0 then
        ⟨.ok (max 0 consumed, [], none), acc1⟩
      else if consumed + pageLen ≤ targetPos && res.hasNextPage && res.endCursor.isSome then
        rebuildLoop fetch trash targetPos fuel res.endCursor (consumed + pageLen) acc1
      else
        let startIdx := targetPos - consumed
        let urisInPage := pageUris (res.edges.drop startIdx)
        let q := urisInPage.filter (fun u => decide (u ∉ trash))
        let nextAfter := if res.hasNextPage then res.endCursor else none
        match refillQueueIfNeeded fetch trash q nextAfter with
        | ⟨.error e, reqs⟩ => ⟨.error e, acc1 ++ reqs⟩
        | ⟨.ok (q2, after2), reqs⟩ => ⟨.ok (max 0 targetPos, q2, after2), acc1 ++ reqs⟩

/-- `rebuildStateAtPos(targetPos)`: walk pages from the beginning
(no cursor), skipping whole pages while the target lies beyond them,
then slice the boundary page, filter against the trash set, refill once
and return.  `targetPos` is 0-based; `Math.max(0, ...)` is absorbed by
`Nat`. -/
def rebuildStateAtPos (fetch : Fetcher κ) (trash : List String) (targetPos : Nat) :
    RebuildOut κ :=
  rebuildLoop fetch trash targetPos (targetPos + 1) none 0 []

/-- The value classes `Number(jumpText.trim())` can land in, as far as the
validation in `jumpToNth` can distinguish them: NaN, an infinity, a finite
integer, or a finite non-integer.  (Float parsing itself is not modelled;
the operation receives the parsed value.) -/
inductive JSNum where
  | nan
  | infinite (negative : Bool)
  | intVal (i : Int)
  | fracVal
deriving DecidableEq

/-- `Number.isFinite`. -/
def JSNum.isFinite : JSNum → Bool
  | .nan => false
  | .infinite _ => false
  | _ => true

/-- `Number.isInteger`. -/
def JSNum.isInteger : JSNum → Bool
  | .intVal _ => true
  | _ => false

/-- How `jumpToNth` rejects a request. -/
inductive JumpReject where
  | invalidNumber
  | outOfRange
  | fetchFailed (e : String)
deriving DecidableEq

/-- Outcome of `jumpToNth`: the resulting state, the page-source requests
issued, and the rejection (if any) reported to the user via an alert. -/
structure JumpOut (κ : Type) where
  st : ScreenState κ
  requests : List (Nat × Option κ)
  reject : Option JumpReject
deriving DecidableEq

/-- The confirmed (`onPress: "Jump"`) branch of `jumpToNth`: clear the
history (before any I/O), rebuild at `targetPos` and commit; a rebuild
fetch error is caught and reported, with the history already cleared. -/
def jumpConfirmed (fetch : Fetcher κ) (targetPos : Nat) (st : ScreenState κ) : JumpOut κ :=
  let st1 := { st with history := ([] : List Action) }
  match rebuildStateAtPos fetch (getTrashSet st1.storage) targetPos with
  | ⟨.error e, reqs⟩ => ⟨st1, reqs, some (JumpReject.fetchFailed e)⟩
  | ⟨.ok (p, q, a), reqs⟩ => ⟨commitState p q a st1, reqs, none⟩

/-- `jumpToNth()` for a parsed input `n`: reject non-finite/non-integer
input, then reject `n < 1` or `n >` the known cached total — both before
any I/O and without touching state.  Otherwise run the confirmed branch
at target position `n - 1`. -/
def jumpToNth (fetch : Fetcher κ) (totalCount : Option Nat) (n : JSNum)
    (st : ScreenState κ) : JumpOut κ :=
  if !n.isFinite || !n.isInteger then
    ⟨st, [], some JumpReject.invalidNumber⟩
  else
    match n with
    | JSNum.intVal i =>
      if i < 1 || (match totalCount with
        | some t => decide ((t : Int) < i)
        | none => false) then
        ⟨st, [], some JumpReject.outOfRange⟩
      else
        jumpConfirmed fetch (i - 1).toNat st
    | _ => ⟨st, [], some JumpReject.invalidNumber⟩

/-- `clearProgress()`: remove `KEY_POS`, `KEY_QUEUE` and `KEY_AFTER`. -/
def clearProgress (s : Storage κ) : Storage κ :=
  { s with pos := none, queue := none, after := none }

/-- The confirmed branch of `restartFromBeginning()`: clear the history,
clear persisted progress, then re-run `loadInitial`. -/
def restartFromBeginning (fetch : Fetcher κ) (st : ScreenState κ) : ScreenState κ :=
  loadInitial fetch
    { st with history := ([] : List Action), storage := clearProgress st.storage }

/-- `currentUri`: `queue && queue.length > 0 ? queue[0] : null`. -/
def currentUri (st : ScreenState κ) : Option String :=
  match st.queue with
  | some (u :: _) => some u
  | _ => none

/-- `done = !currentUri && !afterCursor`. -/
def doneState (st : ScreenState κ) : Bool :=
  (currentUri st).isNone && st.afterCursor.isNone

/-- A concrete, stable-ordered page source built from a list of URIs, with
`Nat` positions as cursors: `getPhotos {first, after}` returns the slice
of `first` items starting at `after ?? 0`, `has_next_page` when items
remain beyond the slice, and the index past the slice as `end_cursor`. -/
def listFetch (source : List String) : Fetcher Nat := fun first after =>
  let start := after.getD 0
  let taken := (source.drop start).take first
  .ok
    { edges := taken.map some
      hasNextPage := decide (start + taken.length < source.length)
      endCursor := some (start + taken.length) }

/-- Storage with every key absent and an empty trash set. -/
def emptyStorage : Storage Nat :=
  { pos := none, queue := none, after := none, trash := [], total := none, totalTs := none }

/-- Component state before the initial load. -/
def initState (s : Storage κ) : ScreenState κ :=
  { pos := 0, queue := none, afterCursor := none, history := [], err := none, storage := s }

/-- Spec-side formalisation of the refill append step, written from the
spec's words: "appends to `buffer` while deduplicating against identifiers
already present (first occurrence wins, order preserved)" — walk the
concatenation left to right, keeping an identifier only on its first
occurrence.  Compared against the source's dedup loop in the C2
refinement theorem. -/
def specMerge (buffer newUris : List String) : List String :=
  (buffer ++ newUris).foldl (fun acc u => if u ∈ acc then acc else acc ++ [u]) []

/-- The buffer of a successful refill outcome (empty on failure);
projection used to state concrete witnesses. -/
def okBuffer (r : RefillOut κ) : List String :=
  match r.result with
  | Except.ok (q, _) => q
  | Except.error _ => []

/-- The three-item source of the end-to-end scenario. -/
def src3 : List String := ["a", "b", "c"]

/-- Page source over `src3`. -/
def f3 : Fetcher Nat := listFetch src3

/-- State after the initial load over `src3` with empty trash and empty
persisted progress. -/
def st3 : ScreenState Nat := loadInitial f3 (initState emptyStorage)

/-- A concrete 100-item stable-ordered source `w0..w99`. -/
def srcW : List String := (List.range 100).map (fun k => "w" ++ toString k)

/-- The first page `getPhotos {first: 80}` of `srcW`: items `w0..w79`,
more pages remaining, continuation cursor 80. -/
def wPage : FetchResult Nat :=
  { edges := ((srcW.take 80).map some), hasNextPage := true, endCursor := some 80 }

/-- The 1000-item stable-ordered source `i0..i999` of the jump claims. -/
def srcK : List String := (List.range 1000).map (fun k => "i" ++ toString k)

/-- Initial state with `i499` trashed, for the jump-with-trash claim. -/
def stKtrash : ScreenState Nat := initState { emptyStorage with trash := ["i499"] }

/-- A page source whose next page is the single fresh item `b`, with
further pages remaining (cursor 7): used to refute unqualified refill
monotonicity on buffers that already contain duplicates. -/
def cxFetch : Fetcher Nat := fun _ _ =>
  Except.ok { edges := [some "b"], hasNextPage := true, endCursor := some 7 }

/-- A page source that always fails (source unreachable). -/
def failFetch : Fetcher Nat := fun _ _ => Except.error "network unavailable"

/-- A mid-session state (two items buffered, cursor 9, clean history and
trash) used to exhibit partial mutation on fetch failure. -/
def stC6 : ScreenState Nat :=
  { pos := 5, queue := some ["x", "y"], afterCursor := some 9, history := [],
    err := none,
    storage := { pos := some 5, queue := some ["x", "y"], after := some 9,
                 trash := [], total := some 1000, totalTs := some 17 } }

/-- The dedup loop never emits an identifier twice, nor one already seen. -/
theorem dedupeKeepFirst_sound (l : List String) : ∀ seen : List String,
    (dedupeKeepFirst seen l).Nodup ∧ ∀ x ∈ dedupeKeepFirst seen l, x ∉ seen := by
  induction l with
  | nil => intro seen; simp [dedupeKeepFirst]
  | cons u rest ih =>
    intro seen
    by_cases hu : u ∈ seen
    · simpa [dedupeKeepFirst, hu] using ih seen
    · have h2 := ih (u :: seen)
      refine ⟨?_, ?_⟩
      · rw [dedupeKeepFirst, if_neg hu]
        refine List.nodup_cons.mpr ⟨fun hmem => ?_, h2.1⟩
        exact h2.2 u hmem (List.mem_cons_self u seen)
      · intro x hx
        rw [dedupeKeepFirst, if_neg hu] at hx
        rcases List.mem_cons.mp hx with rfl | hx'
        · exact hu
        · intro hxs
          exact h2.2 x hx' (List.mem_cons_of_mem u hxs)

/-- Everything in the input that was not seen yet survives the dedup loop. -/
theorem mem_dedupeKeepFirst {x : String} (l : List String) : ∀ seen : List String,
    x ∈ l → x ∉ seen → x ∈ dedupeKeepFirst seen l := by
  induction l with
  | nil => intro seen h; exact absurd h (List.not_mem_nil x)
  | cons u rest ih =>
    intro seen hx hxs
    by_cases hu : u ∈ seen
    · have hxu : x ≠ u := fun h => hxs (h ▸ hu)
      have hx' : x ∈ rest := by
        rcases List.mem_cons.mp hx with h | h
        · exact absurd h hxu
        · exact h
      rw [dedupeKeepFirst, if_pos hu]
      exact ih seen hx' hxs
    · rw [dedupeKeepFirst, if_neg hu]
      rcases List.mem_cons.mp hx with rfl | hx'
      · exact List.mem_cons_self x _
      · by_cases hxu : x = u
        · subst hxu; exact List.mem_cons_self x _
        · refine List.mem_cons_of_mem u (ih (u :: seen) hx' ?_)
          intro hmem
          rcases List.mem_cons.mp hmem with h | h
          · exact hxu h
          · exact hxs h

/-- A duplicate-free prefix passes through the dedup loop intact, so the
output is at least as long as that prefix. -/
theorem length_le_dedupeKeepFirst : ∀ (buffer : List String) (extra seen : List String),
    buffer.Nodup → (∀ b ∈ buffer, b ∉ seen) →
    buffer.length ≤ (dedupeKeepFirst seen (buffer ++ extra)).length := by
  intro buffer
  induction buffer with
  | nil => intro extra seen _ _; exact Nat.zero_le _
  | cons b B ih =>
    intro extra seen hnd hbs
    have hb : b ∉ seen := hbs b (List.mem_cons_self b B)
    have hnd' := List.nodup_cons.mp hnd
    rw [List.cons_append, dedupeKeepFirst, if_neg hb, List.length_cons, List.length_cons]
    refine Nat.succ_le_succ (ih extra (b :: seen) hnd'.2 ?_)
    intro x hx hmem
    rcases List.mem_cons.mp hmem with rfl | h
    · exact hnd'.1 hx
    · exact hbs x (List.mem_cons_of_mem b hx) h

/-- The dedup loop only consults membership of `seen`. -/
theorem dedupeKeepFirst_congr (l : List String) : ∀ s1 s2 : List String,
    (∀ x : String, x ∈ s1 ↔ x ∈ s2) →
    dedupeKeepFirst s1 l = dedupeKeepFirst s2 l := by
  induction l with
  | nil => intro s1 s2 _; rfl
  | cons u rest ih =>
    intro s1 s2 h
    by_cases hu : u ∈ s1
    · rw [dedupeKeepFirst, if_pos hu, dedupeKeepFirst, if_pos ((h u).mp hu)]
      exact ih s1 s2 h
    · rw [dedupeKeepFirst, if_neg hu, dedupeKeepFirst, if_neg (fun h2 => hu ((h u).mpr h2))]
      refine congrArg (u :: ·) (ih (u :: s1) (u :: s2) ?_)
      intro x
      simp [h x]

/-- The spec-side left fold computes the same list as the source's dedup
loop, relative to any already-accumulated prefix. -/
theorem foldl_dedupe (l : List String) : ∀ acc : List String,
    l.foldl (fun acc u => if u ∈ acc then acc else acc ++ [u]) acc
      = acc ++ dedupeKeepFirst acc l := by
  induction l with
  | nil => intro acc; simp [dedupeKeepFirst]
  | cons u rest ih =>
    intro acc
    by_cases hu : u ∈ acc
    · rw [List.foldl_cons, if_pos hu, ih acc, dedupeKeepFirst, if_pos hu]
    · rw [List.foldl_cons, if_neg hu, ih (acc ++ [u]), dedupeKeepFirst, if_neg hu]
      rw [dedupeKeepFirst_congr rest (acc ++ [u]) (u :: acc) (by intro x; simp [or_comm])]
      simp

/-- C8: the undo history never holds more than 5 entries and is ordered
newest first (`pushHistory` prepends), and pushing 7 actions onto the
empty stack leaves exactly the 5 most recent, the 2 oldest evicted. -/
theorem bounded_undo_stack (h : List Action) (a a1 a2 a3 a4 a5 a6 a7 : Action) :
    (pushHistory a h).length ≤ 5 ∧
    (pushHistory a h).head? = some a ∧
    pushHistory a7 (pushHistory a6 (pushHistory a5 (pushHistory a4 (pushHistory a3
        (pushHistory a2 (pushHistory a1 [])))))) = [a7, a6, a5, a4, a3] := by
  refine ⟨?_, rfl, rfl⟩
  simp only [pushHistory, HISTORY_LIMIT, List.length_take]
  exact min_le_left _ _

/-- C2: a refill on a buffer at or above the low-water mark (20) returns
its inputs unchanged with no fetch; otherwise it fetches exactly one page
of size 80 using the current cursor, filters the fetched identifiers
against the trash set, appends them to the buffer deduplicating with
first occurrence winning and order preserved (`specMerge`, written from
the spec's words), and returns the page's continuation token as the new
cursor, or null if the source reports no further pages. -/
theorem refill_contract {κ : Type} (fetch : Fetcher κ) (trash B : List String)
    (c : Option κ) :
    (20 ≤ B.length →
      refillQueueIfNeeded fetch trash B c = ⟨Except.ok (B, c), []⟩) ∧
    (B.length < 20 → ∀ res, fetch 80 c = Except.ok res →
      refillQueueIfNeeded fetch trash B c =
        ⟨Except.ok
            (specMerge B ((pageUris res.edges).filter (fun u => decide (u ∉ trash))),
              if res.hasNextPage then res.endCursor else none),
          [(80, c)]⟩) := by
  constructor
  · intro h
    have h' : MIN_QUEUE_BEFORE_REFILL ≤ B.length := h
    rw [refillQueueIfNeeded, if_pos h']
  · intro h res hres
    have hn : ¬ (MIN_QUEUE_BEFORE_REFILL ≤ B.length) := Nat.not_le.mpr h
    rw [refillQueueIfNeeded, if_neg hn]
    have hres' : fetch PAGE_SIZE c = Except.ok res := hres
    rw [hres']
    have hmerge : specMerge B ((pageUris res.edges).filter (fun u => decide (u ∉ trash)))
        = dedupeKeepFirst []
            (B ++ (pageUris res.edges).filter (fun u => decide (u ∉ trash))) := by
      rw [specMerge, foldl_dedupe, List.nil_append]
    rw [hmerge]
    rfl

/-- C2 witness: over the concrete 100-item source `srcW`, a 20-item buffer
is returned unchanged with no fetch, and an empty buffer triggers exactly
one page-80 fetch whose result is merged as the contract states. -/
theorem refill_contract_witness :
    refillQueueIfNeeded (listFetch srcW) [] (List.replicate 20 "a") none
        = ⟨Except.ok (List.replicate 20 "a", none), []⟩ ∧
    refillQueueIfNeeded (listFetch srcW) [] [] none
        = ⟨Except.ok
            (specMerge [] ((pageUris wPage.edges).filter (fun u => decide (u ∉ ([] : List String)))),
              if wPage.hasNextPage then wPage.endCursor else none),
          [(80, none)]⟩ := by
  refine ⟨(refill_contract (listFetch srcW) [] (List.replicate 20 "a") none).1 (by decide),
    (refill_contract (listFetch srcW) [] [] none).2 (by decide) wPage ?_⟩
  decide

/-- C9 as stated is false: refill can return a buffer shorter than its
input even though the source reports further pages (input `[a,a,a]`, page
`[b]`, output `[a,b]`), and an input at the low-water mark that contains
duplicates is returned unchanged, duplicates included. -/
theorem refill_monotone_cx :
    (refillQueueIfNeeded cxFetch [] ["a", "a", "a"] none).result
        = Except.ok (["a", "b"], some 7) ∧
    List.length ["a", "b"] < List.length ["a", "a", "a"] ∧
    cxFetch 80 none
        = Except.ok { edges := [some "b"], hasNextPage := true, endCursor := some 7 } ∧
    (refillQueueIfNeeded cxFetch [] (List.replicate 20 "a") none).result
        = Except.ok (List.replicate 20 "a", none) ∧
    ¬ (List.replicate 20 "a").Nodup := by decide

/-- C9 amended: for every duplicate-free buffer B, trash set and cursor,
a successful refill never returns a buffer shorter than B — whether or
not the source is exhausted — and the returned buffer is duplicate-free. -/
theorem refill_monotone_nodup {κ : Type} (fetch : Fetcher κ) (trash B : List String)
    (c : Option κ) (hB : B.Nodup) :
    ∀ q a, (refillQueueIfNeeded fetch trash B c).result = Except.ok (q, a) →
      B.length ≤ q.length ∧ q.Nodup := by
  intro q a h
  by_cases hlen : MIN_QUEUE_BEFORE_REFILL ≤ B.length
  · rw [refillQueueIfNeeded, if_pos hlen] at h
    simp only [Except.ok.injEq, Prod.mk.injEq] at h
    rw [← h.1]
    exact ⟨Nat.le_refl _, hB⟩
  · rw [refillQueueIfNeeded, if_neg hlen] at h
    cases hfetch : fetch PAGE_SIZE c with
    | error e => rw [hfetch] at h; exact absurd h (by simp)
    | ok res =>
      rw [hfetch] at h
      simp only [Except.ok.injEq, Prod.mk.injEq] at h
      rw [← h.1]
      refine ⟨length_le_dedupeKeepFirst B _ [] hB (by simp), ?_⟩
      exact (dedupeKeepFirst_sound _ []).1

/-- C9 amended witness: a concrete duplicate-free two-item buffer grows
to three duplicate-free items. -/
theorem refill_monotone_nodup_witness :
    List.length ["x", "y"] ≤ List.length ["x", "y", "b"] ∧
    (["x", "y", "b"] : List String).Nodup :=
  refill_monotone_nodup cxFetch [] ["x", "y"] none (by decide) ["x", "y", "b"] (some 7)
    (by decide)

/-- C3: a refill below the low-water mark with a null cursor does not
short-circuit: it issues exactly one fetch of size 80 with no cursor
argument (the first page of the source), every fetched identifier that is
neither trashed nor already buffered is appended again, and the cursor is
set to that first page's continuation token (instead of staying null)
whenever the page reports further pages. -/
theorem refill_null_cursor_wraps {κ : Type} (fetch : Fetcher κ) (trash B : List String)
    (hB : B.length < 20) :
    (refillQueueIfNeeded fetch trash B none).requests = [(80, (none : Option κ))] ∧
    (∀ res, fetch 80 none = Except.ok res →
      ∃ q, (refillQueueIfNeeded fetch trash B none).result
          = Except.ok (q, if res.hasNextPage then res.endCursor else none) ∧
        ∀ u, u ∈ pageUris res.edges → u ∉ trash → u ∉ B → u ∈ q) := by
  have hn : ¬ (MIN_QUEUE_BEFORE_REFILL ≤ B.length) := Nat.not_le.mpr hB
  constructor
  · cases hfetch : fetch PAGE_SIZE none with
    | error e => rw [refillQueueIfNeeded, if_neg hn, hfetch]; rfl
    | ok res => rw [refillQueueIfNeeded, if_neg hn, hfetch]; rfl
  · intro res hres
    have hres' : fetch PAGE_SIZE none = Except.ok res := hres
    refine ⟨dedupeKeepFirst []
        (B ++ (pageUris res.edges).filter (fun u => decide (u ∉ trash))), ?_, ?_⟩
    · rw [refillQueueIfNeeded, if_neg hn, hres']
    · intro u hu hut _
      refine mem_dedupeKeepFirst _ [] ?_ (List.not_mem_nil u)
      refine List.mem_append_right B ?_
      refine List.mem_filter.mpr ⟨hu, ?_⟩
      exact decide_eq_true hut

/-- C3 witness: a one-item buffer with null cursor over the 100-item
source `srcW` issues the no-cursor fetch, re-buffers the already-processed
item `w5`, and resets the cursor to the first page's token 80. -/
theorem refill_null_cursor_wraps_witness :
    (refillQueueIfNeeded (listFetch srcW) [] ["p"] none).requests
        = [(80, (none : Option Nat))] ∧
    "w5" ∈ okBuffer (refillQueueIfNeeded (listFetch srcW) [] ["p"] none) ∧
    (refillQueueIfNeeded (listFetch srcW) [] ["p"] none).result
        = Except.ok (okBuffer (refillQueueIfNeeded (listFetch srcW) [] ["p"] none),
            some 80) := by
  have h := refill_null_cursor_wraps (listFetch srcW) [] ["p"] (by decide)
  obtain ⟨q, hq, hmem⟩ := h.2 wPage (by decide)
  have hqq : okBuffer (refillQueueIfNeeded (listFetch srcW) [] ["p"] none) = q := by
    rw [okBuffer, hq]
  refine ⟨h.1, ?_, ?_⟩
  · rw [hqq]
    exact hmem "w5" (by decide) (by decide) (by decide)
  · have hcur : (if wPage.hasNextPage = true then wPage.endCursor else none)
        = some 80 := by decide
    rw [hqq, hq, hcur]

set_option maxRecDepth 20000 in
/-- C1 (evaluation of the code at the scenario's input): over the
three-item source `[a,b,c]` with empty trash and storage, the engine loads
`buffer=[a,b,c]`, position 0, cursor null as the scenario states — but the
first `skip()` yields `buffer=[b,c,a]`, not `[b,c]`: the refill triggered
by the skip passes `after: currentAfter ?? undefined` with a null cursor
and so re-fetches the first page, re-appending the already-processed `a`.
The full run `skip; trash; undo; skip; skip` ends at position 3 with
`buffer=[a,b,c]`, cursor null and `done=false`, never reaching the
scenario's final state `buffer=[]`, `done=true`. -/
theorem three_item_scenario_eval :
    (st3.pos = 0 ∧ st3.queue = some ["a", "b", "c"] ∧ st3.afterCursor = none) ∧
    (let s1 := (skipCurrent f3 st3).1
     let s2 := (trashCurrent f3 s1).1
     let s3 := undoLast s2
     let s4 := (skipCurrent f3 s3).1
     let s5 := (skipCurrent f3 s4).1
     (s1.pos = 1 ∧ s1.queue = some ["b", "c", "a"]
        ∧ s1.queue ≠ some ["b", "c"]) ∧
     (s2.pos = 2 ∧ s2.queue = some ["c", "a"] ∧ s2.storage.trash = ["b"]) ∧
     (s3.pos = 1 ∧ s3.queue = some ["b", "c", "a"] ∧ s3.storage.trash = []) ∧
     (s5.pos = 3 ∧ s5.queue = some ["a", "b", "c"] ∧ s5.afterCursor = none
        ∧ doneState s5 = false)) := by
  decide

set_option maxRecDepth 20000 in
/-- C4: over the stable-ordered 1000-item source `i0..i999` with cached
total 1000, `jumpTo(500)` (1-based) with empty trash yields position 499
and `buffer[0] = i499`; with exactly `i499` trashed it yields position 499
and `buffer[0] = i500`, the first non-trashed item at or after the target
offset. -/
theorem jump_exactness :
    (let out := jumpToNth (listFetch srcK) (some 1000) (JSNum.intVal 500)
        (initState emptyStorage)
     out.reject = none ∧ out.st.pos = 499
        ∧ (out.st.queue.getD []).head? = some "i499") ∧
    (let out := jumpToNth (listFetch srcK) (some 1000) (JSNum.intVal 500) stKtrash
     out.reject = none ∧ out.st.pos = 499
        ∧ (out.st.queue.getD []).head? = some "i500") := by
  decide

/-- C5: a jump input that is not a (finite) integer, is below 1, or
exceeds the known cached total is rejected before any I/O: no page-source
request is issued, the rejection is reported, and the state — position,
buffer, cursor, undo history and all persisted keys — is untouched. -/
theorem invalid_jump_rejected {κ : Type} (fetch : Fetcher κ) (totalCount : Option Nat)
    (n : JSNum) (st : ScreenState κ)
    (h : n.isInteger = false ∨
      ∃ i, n = JSNum.intVal i ∧ (i < 1 ∨ ∃ t, totalCount = some t ∧ (t : Int) < i)) :
    (jumpToNth fetch totalCount n st).st = st ∧
    (jumpToNth fetch totalCount n st).requests = [] ∧
    ((jumpToNth fetch totalCount n st).reject = some JumpReject.invalidNumber ∨
      (jumpToNth fetch totalCount n st).reject = some JumpReject.outOfRange) := by
  cases n with
  | nan => exact ⟨rfl, rfl, Or.inl rfl⟩
  | infinite b => exact ⟨rfl, rfl, Or.inl rfl⟩
  | fracVal => exact ⟨rfl, rfl, Or.inl rfl⟩
  | intVal i =>
    rcases h with h | ⟨i', hi', hrange⟩
    · exact absurd h (by simp [JSNum.isInteger])
    · injection hi' with hii
      subst hii
      cases totalCount with
      | none =>
        have hlt : i < 1 := by
          rcases hrange with hlt | ⟨t, ht, _⟩
          · exact hlt
          · exact absurd ht (by simp)
        refine ⟨?_, ?_, Or.inr ?_⟩ <;>
          simp [jumpToNth, JSNum.isFinite, JSNum.isInteger, hlt]
      | some t =>
        rcases hrange with hlt | ⟨t', ht, hlt⟩
        · refine ⟨?_, ?_, Or.inr ?_⟩ <;>
            simp [jumpToNth, JSNum.isFinite, JSNum.isInteger, hlt]
        · injection ht with htt
          subst htt
          refine ⟨?_, ?_, Or.inr ?_⟩ <;>
            simp [jumpToNth, JSNum.isFinite, JSNum.isInteger, hlt]

/-- C5 witness: jump input 0 over the 100-item source is rejected with no
request and no state change. -/
theorem invalid_jump_rejected_witness :
    (jumpToNth (listFetch srcW) (some 100) (JSNum.intVal 0) stC6).st = stC6 ∧
    (jumpToNth (listFetch srcW) (some 100) (JSNum.intVal 0) stC6).requests = [] ∧
    ((jumpToNth (listFetch srcW) (some 100) (JSNum.intVal 0) stC6).reject
        = some JumpReject.invalidNumber ∨
      (jumpToNth (listFetch srcW) (some 100) (JSNum.intVal 0) stC6).reject
        = some JumpReject.outOfRange) :=
  invalid_jump_rejected (listFetch srcW) (some 100) (JSNum.intVal 0) stC6
    (Or.inr ⟨0, rfl, Or.inl (by decide)⟩)

/-- Removing an identifier from the trash list leaves it absent. -/
theorem not_mem_filter_ne (l : List String) (x : String) :
    x ∉ l.filter (fun v => decide (v ≠ x)) := by
  simp [List.mem_filter]

/-- C7: after a successful `trash(x)` from a state whose current item is
`x`, `undo()` removes `x` from the (persisted) trash set, decrements the
position by exactly 1 — back to its pre-trash value — prepends `x` to the
front of whatever buffer the intervening refill produced, and leaves the
cursor unchanged. -/
theorem undo_inverse {κ : Type} (fetch : Fetcher κ) (st st1 : ScreenState κ)
    (x : String) (rest : List String)
    (hq : st.queue = some (x :: rest))
    (hok : trashCurrent fetch st = (st1, none)) :
    x ∉ (undoLast st1).storage.trash ∧
    (undoLast st1).pos = st1.pos - 1 ∧
    st1.pos = st.pos + 1 ∧
    (undoLast st1).pos = st.pos ∧
    (∃ q1, st1.queue = some q1 ∧ (undoLast st1).queue = some (x :: q1)) ∧
    (undoLast st1).afterCursor = st1.afterCursor := by
  simp only [trashCurrent, hq] at hok
  split at hok
  · exact absurd (congrArg Prod.snd hok) (by simp)
  · have hst1 : st1 = commitState (st.pos + 1) _ _ _ := (congrArg Prod.fst hok).symm
    subst hst1
    refine ⟨not_mem_filter_ne _ x, rfl, rfl, rfl, ⟨_, rfl, rfl⟩, rfl⟩

/-- C7 witness: over the three-item source, trashing `a` from the loaded
state and undoing restores `a` to trash-absence, returns to position 0 and
re-exposes `a` as the current item. -/
theorem undo_inverse_witness :
    "a" ∉ (undoLast (trashCurrent f3 st3).1).storage.trash ∧
    (undoLast (trashCurrent f3 st3).1).pos = st3.pos ∧
    (undoLast (trashCurrent f3 st3).1).afterCursor
        = (trashCurrent f3 st3).1.afterCursor := by
  have h := undo_inverse f3 st3 (trashCurrent f3 st3).1 "a" ["b", "c"]
    (by decide) (by decide)
  exact ⟨h.1, h.2.2.2.1, h.2.2.2.2.2⟩

/-- Every run of `loadInitial` either fails, leaving the state unchanged
except for the surfaced error message, or succeeds with a cleared error. -/
theorem loadInitial_err_cases {κ : Type} (fetch : Fetcher κ) (st : ScreenState κ) :
    (∃ e, loadInitial fetch st = { st with err := some e }) ∨
    (loadInitial fetch st).err = none := by
  simp only [loadInitial]
  split
  · exact Or.inl ⟨_, rfl⟩
  · split
    · exact Or.inl ⟨_, rfl⟩
    · exact Or.inr rfl

/-- `loadInitial` never writes the trash or total-count storage keys. -/
theorem loadInitial_storage_frame {κ : Type} (fetch : Fetcher κ) (st : ScreenState κ) :
    (loadInitial fetch st).storage.trash = st.storage.trash ∧
    (loadInitial fetch st).storage.total = st.storage.total ∧
    (loadInitial fetch st).storage.totalTs = st.storage.totalTs := by
  simp only [loadInitial]
  split
  · exact ⟨rfl, rfl, rfl⟩
  · split
    · exact ⟨rfl, rfl, rfl⟩
    · exact ⟨rfl, rfl, rfl⟩

/-- A confirmed jump that reports a fetch failure has already cleared the
history and changed nothing else. -/
theorem jumpConfirmed_fetchFailed {κ : Type} (fetch : Fetcher κ) (targetPos : Nat)
    (st : ScreenState κ) (e : String)
    (h : (jumpConfirmed fetch targetPos st).reject = some (JumpReject.fetchFailed e)) :
    (jumpConfirmed fetch targetPos st).st = { st with history := ([] : List Action) } := by
  simp only [jumpConfirmed] at h ⊢
  split at h
  · rfl
  · exact absurd h (by simp)

/-- `jumpToNth` either rejects before I/O with the state untouched, or
runs the confirmed branch at target `n - 1`. -/
theorem jumpToNth_shapes {κ : Type} (fetch : Fetcher κ) (totalCount : Option Nat)
    (n : JSNum) (st : ScreenState κ) :
    jumpToNth fetch totalCount n st = ⟨st, [], some JumpReject.invalidNumber⟩ ∨
    jumpToNth fetch totalCount n st = ⟨st, [], some JumpReject.outOfRange⟩ ∨
    ∃ i, n = JSNum.intVal i ∧
      jumpToNth fetch totalCount n st = jumpConfirmed fetch (i - 1).toNat st := by
  cases n with
  | nan => exact Or.inl rfl
  | infinite b => exact Or.inl rfl
  | fracVal => exact Or.inl rfl
  | intVal i =>
    simp only [jumpToNth]
    split
    · exact Or.inl rfl
    · split
      · exact Or.inr (Or.inl rfl)
      · exact Or.inr (Or.inr ⟨i, rfl, rfl⟩)

/-- C6 amended: when the page-source fetch inside a mutating operation
fails, the queue state `{position, buffer, cursor}` and its persisted
copy are never changed — but contrary to the claim, not all state is
preserved: `skip` has already pushed its undo entry, `trash` has already
pushed its entry and inserted the item into the persisted trash set, and
the confirmed `jump` has already cleared the undo history, all before the
fetch; only `load` surfaces the failure as a retryable error state
(`skip`/`trash` let the rejection escape unhandled). -/
theorem fetch_failure_atomicity {κ : Type} (fetch : Fetcher κ) (st : ScreenState κ) :
    (∀ st' e, skipCurrent fetch st = (st', some e) →
      ∃ u rest, st.queue = some (u :: rest) ∧
        st' = { st with history := pushHistory (Action.skip u) st.history }) ∧
    (∀ st' e, trashCurrent fetch st = (st', some e) →
      ∃ u rest, st.queue = some (u :: rest) ∧
        st' = { st with history := pushHistory (Action.trash u) st.history,
                        storage := addToTrash u st.storage }) ∧
    (∀ e, (loadInitial fetch st).err = some e →
      loadInitial fetch st = { st with err := some e }) ∧
    (∀ totalCount n e,
      (jumpToNth fetch totalCount n st).reject = some (JumpReject.fetchFailed e) →
      (jumpToNth fetch totalCount n st).st = { st with history := ([] : List Action) }) := by
  refine ⟨?_, ?_, ?_, ?_⟩
  · intro st' e h
    match hq : st.queue with
    | none => rw [skipCurrent, hq] at h; exact absurd (congrArg Prod.snd h) (by simp)
    | some [] => rw [skipCurrent, hq] at h; exact absurd (congrArg Prod.snd h) (by simp)
    | some (u :: rest) =>
      simp only [skipCurrent, hq] at h
      split at h
      · exact ⟨u, rest, rfl, (congrArg Prod.fst h).symm⟩
      · exact absurd (congrArg Prod.snd h) (by simp)
  · intro st' e h
    match hq : st.queue with
    | none => rw [trashCurrent, hq] at h; exact absurd (congrArg Prod.snd h) (by simp)
    | some [] => rw [trashCurrent, hq] at h; exact absurd (congrArg Prod.snd h) (by simp)
    | some (u :: rest) =>
      simp only [trashCurrent, hq] at h
      split at h
      · exact ⟨u, rest, rfl, (congrArg Prod.fst h).symm⟩
      · exact absurd (congrArg Prod.snd h) (by simp)
  · intro e h
    rcases loadInitial_err_cases fetch st with ⟨e', he'⟩ | hnone
    · rw [he'] at h ⊢
      simp only [ScreenState.mk.injEq] at h ⊢
      simp_all
    · rw [hnone] at h
      exact absurd h (by simp)
  · intro totalCount n e h
    rcases jumpToNth_shapes fetch totalCount n st with hj | hj | ⟨i, -, hj⟩
    · rw [hj] at h
      exact absurd h (by simp)
    · rw [hj] at h
      exact absurd h (by simp)
    · rw [hj] at h ⊢
      exact jumpConfirmed_fetchFailed fetch _ st e h

/-- C6 counterexample: from a clean mid-session state, a failing fetch
during `trash` (and `skip`) leaves the queue state untouched but has
already mutated the persisted trash set and the undo history — so the
claim that the trash set and undo history "remain whatever they were" is
false — and the failure is not surfaced in the component error state. -/
theorem fetch_failure_partial_mutation_cx :
    (trashCurrent failFetch stC6).2 = some "network unavailable" ∧
    (trashCurrent failFetch stC6).1.pos = 5 ∧
    (trashCurrent failFetch stC6).1.queue = some ["x", "y"] ∧
    (trashCurrent failFetch stC6).1.storage.trash = ["x"] ∧
    (trashCurrent failFetch stC6).1.history = [Action.trash "x"] ∧
    stC6.storage.trash = [] ∧
    stC6.history = [] ∧
    (skipCurrent failFetch stC6).2 = some "network unavailable" ∧
    (skipCurrent failFetch stC6).1.history = [Action.skip "x"] ∧
    (trashCurrent failFetch stC6).1.err = none := by
  decide

/-- C6 amended witness: the amended atomicity statement applied at the
concrete always-failing source and the concrete mid-session state. -/
theorem fetch_failure_atomicity_witness :
    (skipCurrent failFetch stC6).1
        = { stC6 with history := pushHistory (Action.skip "x") stC6.history } ∧
    (trashCurrent failFetch stC6).1
        = { stC6 with history := pushHistory (Action.trash "x") stC6.history,
                      storage := addToTrash "x" stC6.storage } ∧
    loadInitial failFetch stC6 = { stC6 with err := some "network unavailable" } ∧
    (jumpToNth failFetch (some 1000) (JSNum.intVal 3) stC6).st
        = { stC6 with history := ([] : List Action) } := by
  obtain ⟨hskip, htrash, hload, hjump⟩ := fetch_failure_atomicity failFetch stC6
  obtain ⟨u1, r1, hq1, hs1⟩ :=
    hskip (skipCurrent failFetch stC6).1 "network unavailable" (by decide)
  obtain ⟨u2, r2, hq2, hs2⟩ :=
    htrash (trashCurrent failFetch stC6).1 "network unavailable" (by decide)
  have hu1 : u1 = "x" := by
    have : some (u1 :: r1) = some ("x" :: ["y"]) := by rw [← hq1]; decide
    simp at this
    exact this.1
  have hu2 : u2 = "x" := by
    have : some (u2 :: r2) = some ("x" :: ["y"]) := by rw [← hq2]; decide
    simp at this
    exact this.1
  refine ⟨?_, ?_, hload "network unavailable" (by decide), ?_⟩
  · rw [hs1, hu1]
  · rw [hs2, hu2]
  · exact hjump (some 1000) (JSNum.intVal 3) "network unavailable" (by decide)

/-- C10: `restart` removes exactly the persisted position, buffer and
cursor keys (`clearProgress` sets those three keys absent and touches
nothing else) and then re-runs `loadInitial`; the persisted trash set and
the total-count cache (value and timestamp) are unchanged for every
starting state and every page source. -/
theorem restart_frame {κ : Type} (fetch : Fetcher κ) (st : ScreenState κ) :
    clearProgress st.storage
        = { st.storage with pos := none, queue := none, after := none } ∧
    restartFromBeginning fetch st
        = loadInitial fetch
            { st with history := ([] : List Action), storage := clearProgress st.storage } ∧
    (restartFromBeginning fetch st).storage.trash = st.storage.trash ∧
    (restartFromBeginning fetch st).storage.total = st.storage.total ∧
    (restartFromBeginning fetch st).storage.totalTs = st.storage.totalTs := by
  have h := loadInitial_storage_frame fetch
    { st with history := ([] : List Action), storage := clearProgress st.storage }
  exact ⟨rfl, rfl, h.1, h.2.1, h.2.2⟩

end GallerySwipe
